import Mathlib

/-!
# Verification of the blesk desk-control core

Shallow embedding of `src/blesk/protocol.py` and `src/blesk/desk.py`
(plus the spec-modelled `get_preset_mm`, absent from `desk.py`).

Bytes are modelled as `Nat` (Python `bytes` elements are in `[0, 256)`);
Python `float` is modelled as the exact rational `ℚ`; fallible Python code
(raising exceptions) is modelled with `Except`/`Option`.
-/

/-! ## Frame codec (`src/blesk/protocol.py`) -/

/-- Source `end_of_message = 0x7e` (protocol.py line 9). -/
def end_of_message : Nat := 0x7e

/-- Source `maximum_param_length = maximum_length - header_length = 12 - 6` (protocol.py line 13). -/
def maximum_param_length : Nat := 6

/-- Python `class Address(Enum)`: DESK = b'\xf1\xf1', HOST = b'\xf2\xf2'. -/
inductive Address
  | DESK
  | HOST
deriving DecidableEq

/-- The two address bytes of an `Address` enum member. -/
def Address.value : Address → List Nat
  | .DESK => [0xf1, 0xf1]
  | .HOST => [0xf2, 0xf2]

/-- Python `Address(bytes)` enum resolution: the inverse of `Address.value`;
`None` models the `ValueError` Python raises for an unknown address. -/
def Address.ofBytes? (bs : List Nat) : Option Address :=
  if bs = [0xf1, 0xf1] then some Address.DESK
  else if bs = [0xf2, 0xf2] then some Address.HOST
  else none

/-- Python `class HostType(Enum)`: message types for messages to the Host. -/
inductive HostType
  | HEIGHT
  | UNITS
  | UNKNOWN_17
  | MEM_MODE
  | COLL_SENS
  | POSITION_1
  | POSITION_2
  | POSITION_3
  | POSITION_4
  | BLE_WAKE_RESP
deriving DecidableEq

/-- The numeric value of each `HostType` member (protocol.py lines 33-48). -/
def HostType.value : HostType → Nat
  | .HEIGHT => 0x01
  | .UNITS => 0x0e
  | .UNKNOWN_17 => 0x17
  | .MEM_MODE => 0x19
  | .COLL_SENS => 0x1d
  | .POSITION_1 => 0x25
  | .POSITION_2 => 0x26
  | .POSITION_3 => 0x27
  | .POSITION_4 => 0x28
  | .BLE_WAKE_RESP => 0xb2

/-- Python `HostType(n)` enum resolution: inverse of `HostType.value`;
`None` models Python's `ValueError` for a value not in the table. -/
def HostType.ofValue? (n : Nat) : Option HostType :=
  if n = 0x01 then some .HEIGHT
  else if n = 0x0e then some .UNITS
  else if n = 0x17 then some .UNKNOWN_17
  else if n = 0x19 then some .MEM_MODE
  else if n = 0x1d then some .COLL_SENS
  else if n = 0x25 then some .POSITION_1
  else if n = 0x26 then some .POSITION_2
  else if n = 0x27 then some .POSITION_3
  else if n = 0x28 then some .POSITION_4
  else if n = 0xb2 then some .BLE_WAKE_RESP
  else none

/-- Python `class DeskType(Enum)`: message types for messages to the Desk. -/
inductive DeskType
  | RAISE
  | LOWER
  | PROGMEM_1
  | PROGMEM_2
  | MOVE_1
  | MOVE_2
  | SETTINGS
  | UNITS
  | GOTO_HEIGHT
  | PROGMEM_3
  | PROGMEM_4
  | MOVE_3
  | MOVE_4
  | BLE_WAKE
deriving DecidableEq

/-- The numeric value of each `DeskType` member (protocol.py lines 54-71). -/
def DeskType.value : DeskType → Nat
  | .RAISE => 0x01
  | .LOWER => 0x02
  | .PROGMEM_1 => 0x03
  | .PROGMEM_2 => 0x04
  | .MOVE_1 => 0x05
  | .MOVE_2 => 0x06
  | .SETTINGS => 0x07
  | .UNITS => 0x0e
  | .GOTO_HEIGHT => 0x1b
  | .PROGMEM_3 => 0x25
  | .PROGMEM_4 => 0x26
  | .MOVE_3 => 0x27
  | .MOVE_4 => 0x28
  | .BLE_WAKE => 0xb2

/-- Python `DeskType(n)` enum resolution: inverse of `DeskType.value`;
`None` models Python's `ValueError` for a value not in the table. -/
def DeskType.ofValue? (n : Nat) : Option DeskType :=
  if n = 0x01 then some .RAISE
  else if n = 0x02 then some .LOWER
  else if n = 0x03 then some .PROGMEM_1
  else if n = 0x04 then some .PROGMEM_2
  else if n = 0x05 then some .MOVE_1
  else if n = 0x06 then some .MOVE_2
  else if n = 0x07 then some .SETTINGS
  else if n = 0x0e then some .UNITS
  else if n = 0x1b then some .GOTO_HEIGHT
  else if n = 0x25 then some .PROGMEM_3
  else if n = 0x26 then some .PROGMEM_4
  else if n = 0x27 then some .MOVE_3
  else if n = 0x28 then some .MOVE_4
  else if n = 0xb2 then some .BLE_WAKE
  else none

/-- A frame command is either a `DeskType` (device-bound) or a `HostType`
(host-bound); the Python `Frame.command` field has type `HostType | DeskType`. -/
inductive Command
  | desk (c : DeskType)
  | host (c : HostType)
deriving DecidableEq

/-- Python `self.command.value` for either variant. -/
def Command.value : Command → Nat
  | .desk c => c.value
  | .host c => c.value

/-- Python `@dataclass class Frame`: `command` plus `params: bytes = b''`. -/
structure Frame where
  command : Command
  params : List Nat := []
deriving DecidableEq

/-- Python `Frame.address` property: `Address.DESK` iff the command is a `DeskType`. -/
def Frame.address (f : Frame) : Address :=
  match f.command with
  | .desk _ => Address.DESK
  | .host _ => Address.HOST

/-- The distinct decode failures of `Frame.from_bytes`, named as in the spec;
each corresponds to one `raise` in protocol.py lines 163-201. -/
inductive FrameError
  | tooShort
  | tooLong
  | lengthMismatch
  | badTerminator
  | checksumMismatch
  | unknownAddress
  | unknownCommand
deriving DecidableEq

/-- Python `Frame.from_bytes` (protocol.py lines 163-205), with the checks in source
order: length bounds, declared length, terminator, checksum, address, command.
`b[i]` is `b.getD i 0`, `b[2:-2]` is `(b.drop 2).take (b.length - 4)`,
`b[4:-2]` is `(b.drop 4).take (b.length - 6)`. -/
def Frame.from_bytes (b : List Nat) : Except FrameError Frame :=
  if b.length < 6 then Except.error FrameError.tooShort
  else if b.length > 12 then Except.error FrameError.tooLong
  else
    let length := b.getD 3 0
    if b.length ≠ length + 6 then Except.error FrameError.lengthMismatch
    else if b.getD (b.length - 1) 0 ≠ end_of_message then Except.error FrameError.badTerminator
    else
      let msg_chk := b.getD (b.length - 2) 0
      let clc_chk := ((b.drop 2).take (b.length - 4)).sum % 0x100
      if msg_chk ≠ clc_chk then Except.error FrameError.checksumMismatch
      else
        match Address.ofBytes? (b.take 2) with
        | none => Except.error FrameError.unknownAddress
        | some Address.DESK =>
          match DeskType.ofValue? (b.getD 2 0) with
          | some c => Except.ok ⟨Command.desk c, (b.drop 4).take (b.length - 6)⟩
          | none => Except.error FrameError.unknownCommand
        | some Address.HOST =>
          match HostType.ofValue? (b.getD 2 0) with
          | some c => Except.ok ⟨Command.host c, (b.drop 4).take (b.length - 6)⟩
          | none => Except.error FrameError.unknownCommand

/-- Python `Frame.to_bytes` (protocol.py lines 207-222): reject params longer than 6
(`ValueError`), then emit address ++ command ++ length ++ params ++ checksum
(`sum(msg[2:]) % 0x100`) ++ terminator. -/
def Frame.to_bytes (f : Frame) : Except String (List Nat) :=
  if f.params.length > maximum_param_length then
    Except.error "Parameter length longer than maximum"
  else
    let body := f.address.value ++ [f.command.value, f.params.length] ++ f.params
    Except.ok (body ++ [(body.drop 2).sum % 0x100, end_of_message])

/-- Enum resolution inverts the value map (desk table). -/
theorem DeskType.ofValue?_value_desk (c : DeskType) : DeskType.ofValue? c.value = some c := by
  cases c <;> rfl

/-- Enum resolution inverts the value map (host table). -/
theorem HostType.ofValue?_value_host (c : HostType) : HostType.ofValue? c.value = some c := by
  cases c <;> rfl

/-! ## Height / unit model (`src/blesk/protocol.py` lines 25-27, 82-149)

Python `float` values are modelled as exact rationals. -/

/-- Python `class Units(Enum)`: MM = 0x00, IN = 0x01 (named with the `Blesk` prefix
because Mathlib already declares a root `Units`). -/
inductive Blesk.Units
  | MM
  | IN
deriving DecidableEq

/-- Python `Units(n)` enum resolution; `None` models the `ValueError`. -/
def Blesk.Units.ofValue? (n : Nat) : Option Blesk.Units :=
  if n = 0x00 then some .MM
  else if n = 0x01 then some .IN
  else none

/-- Python `int(q)`: truncation toward zero. -/
def pyint (q : ℚ) : ℤ :=
  if 0 ≤ q then ⌊q⌋ else -⌊-q⌋

/-- Python float modulo `a % b` (sign of the divisor): `a - b * ⌊a / b⌋`. -/
def pymod (a b : ℚ) : ℚ := a - b * ⌊a / b⌋

/-- Assignment of an integer into a `bytearray` cell: Python raises
`ValueError` unless `0 ≤ z < 256`; `none` models that failure. -/
def byteAssign? (z : ℤ) : Option Nat :=
  if 0 ≤ z ∧ z < 256 then some z.toNat else none

/-- Python `@dataclass class HeightData`: two raw wire bytes. -/
structure HeightData where
  data : List Nat
deriving DecidableEq

/-- Python `@dataclass class HeightMM`: a height in millimeters (`mm: float`). -/
structure HeightMM where
  mm : ℚ
deriving DecidableEq

/-- Python `@dataclass class HeightIn`: a height in inches (`inches: float`). -/
structure HeightIn where
  inches : ℚ
deriving DecidableEq

/-- The result type of `HeightData.decode_as`, which returns
`HeightMM | HeightIn` in Python. -/
inductive Height
  | mm (h : HeightMM)
  | inch (h : HeightIn)
deriving DecidableEq

/-- Python `HeightData.decode_as(unit)` (protocol.py lines 86-91): big-endian 16-bit
raw value; mm unit keeps it, inches unit divides the tenth-inch count by 10. -/
def HeightData.decode_as (d : HeightData) (unit : Blesk.Units) : Height :=
  match unit with
  | .MM => Height.mm ⟨(d.data.getD 0 0) * 0x100 + d.data.getD 1 0⟩
  | .IN => Height.inch ⟨(((d.data.getD 0 0) * 0x100 + d.data.getD 1 0 : ℕ) : ℚ) / 10⟩

/-- Python `HeightMM.as_float` property: returns `self.mm` (the field exists). -/
def HeightMM.as_float (h : HeightMM) : ℚ := h.mm

/-- Python `HeightMM.as_mm` property: returns `self`. -/
def HeightMM.as_mm (h : HeightMM) : HeightMM := h

/-- Python `HeightMM.as_in` property: `HeightIn(self.mm * 0.0393701)`. -/
def HeightMM.as_in (h : HeightMM) : HeightIn :=
  ⟨h.mm * (393701 / 10000000 : ℚ)⟩

/-- Python `HeightMM.encode` property (protocol.py lines 117-124):
`data[0] = int(self.mm / 0x100)`, `data[1] = int(self.mm % 0x100)`;
`none` models the `ValueError` a `bytearray` raises on an out-of-range byte. -/
def HeightMM.encode (h : HeightMM) : Option HeightData :=
  match byteAssign? (pyint (h.mm / 0x100)), byteAssign? (pyint (pymod h.mm 0x100)) with
  | some d0, some d1 => some ⟨[d0, d1]⟩
  | _, _ => none

/-- The attribute `mm` on a `HeightIn` instance: the dataclass declares only
the field `inches` and no property named `mm`, so the lookup finds nothing. -/
def HeightIn.mmAttr (h : HeightIn) : Option ℚ := none

/-- Python `HeightIn.as_float` property (protocol.py lines 130-132): its body is
`return self.mm`; since `HeightIn` has no attribute `mm` (see
`HeightIn.mmAttr`), the access raises `AttributeError`. -/
def HeightIn.as_float (h : HeightIn) : Except String ℚ :=
  match h.mmAttr with
  | some v => Except.ok v
  | none => Except.error "AttributeError: HeightIn object has no attribute mm"

/-- Python `HeightIn.as_mm` property: `HeightMM(self.inches / 0.0393701)`. -/
def HeightIn.as_mm (h : HeightIn) : HeightMM :=
  ⟨h.inches / (393701 / 10000000 : ℚ)⟩

/-- Python `HeightIn.encode` property (protocol.py lines 142-149):
`data[0] = int(self.inches * 10 / 0x100)`, `data[1] = int(self.inches * 10 % 0x100)`. -/
def HeightIn.encode (h : HeightIn) : Option HeightData :=
  match byteAssign? (pyint (h.inches * 10 / 0x100)),
        byteAssign? (pyint (pymod (h.inches * 10) 0x100)) with
  | some d0, some d1 => some ⟨[d0, d1]⟩
  | _, _ => none

/-- Model `Height.as_mm`: dispatches the `as_mm` property of either variant. -/
def Height.as_mm : Height → HeightMM
  | .mm h => h
  | .inch h => h.as_mm

/-- Claim C1: for every Frame `f` whose command is a valid device-bound or
host-bound command and whose params length is at most 6 bytes, decoding the
encoding of `f` yields `f` back: `Frame.from_bytes (f.to_bytes()) = f`. -/
theorem frame_decode_encode_roundtrip (f : Frame)
    (h1 : f.params.length ≤ 6) (h2 : ∀ b ∈ f.params, b < 256) :
    ∃ bs, Frame.to_bytes f = Except.ok bs ∧ Frame.from_bytes bs = Except.ok f := by
  clear h2
  obtain ⟨c, p⟩ := f
  have h1' : p.length ≤ 6 := h1
  clear h1
  rcases c with c | c <;>
    rcases p with _ | ⟨x1, _ | ⟨x2, _ | ⟨x3, _ | ⟨x4, _ | ⟨x5, _ | ⟨x6, _ | ⟨x7, t⟩⟩⟩⟩⟩⟩⟩ <;>
    first
      | (exfalso; simp only [List.length_cons] at h1'; omega)
      | (refine ⟨_, rfl, ?_⟩
         simp [Frame.from_bytes, Frame.to_bytes, Frame.address, Command.value,
               Address.value, Address.ofBytes?, end_of_message,
               DeskType.ofValue?_value_desk, HostType.ofValue?_value_host])

/-- Witness for C1 at the concrete Height frame with params `[0x02, 0xee]`. -/
theorem frame_decode_encode_roundtrip_witness :
    ∃ bs, Frame.to_bytes ⟨Command.host HostType.HEIGHT, [0x02, 0xee]⟩ = Except.ok bs ∧
      Frame.from_bytes bs = Except.ok ⟨Command.host HostType.HEIGHT, [0x02, 0xee]⟩ :=
  frame_decode_encode_roundtrip ⟨Command.host HostType.HEIGHT, [0x02, 0xee]⟩
    (by decide) (by decide)

/-! ## Session engine (`src/blesk/desk.py`)

State of one `Blesk` instance: the subscriber registry `_listeners` (queue
handles in registration order), the contents of every queue ever created
(keyed by handle; a handle removed from `listeners` keeps its queue object),
the next fresh handle, the `_connection_cache` (an insertion-ordered
association list, like a Python dict), and the trace of transport writes
(`write_gatt_char` calls) made so far.

Python asyncio is modelled as a cooperative single-threaded scheduler:
a coroutine runs uninterrupted between `await` points, `asyncio.create_task`
enqueues a task that first runs when the creating coroutine next suspends,
and ready callbacks run in FIFO order. -/

/-- Association-list lookup (first binding wins), modelling `dict`/identity
lookup. -/
def alookup {κ α : Type} [DecidableEq κ] : List (κ × α) → κ → Option α
  | [], _ => none
  | (a, b) :: t, k => if a = k then some b else alookup t k

/-- Association-list upsert, modelling `d[k] = v` on a Python dict: an
existing key keeps its position, a new key is appended. -/
def aupsert {κ α : Type} [DecidableEq κ] : List (κ × α) → κ → α → List (κ × α)
  | [], k, v => [(k, v)]
  | (a, b) :: t, k, v => if a = k then (a, v) :: t else (a, b) :: aupsert t k v

/-- Python `list.remove(x)`: remove the first occurrence; `none` when `x` is absent
(where Python raises `ValueError`). -/
def removeFirst {α : Type} [DecidableEq α] : List α → α → Option (List α)
  | [], _ => none
  | x :: xs, a => if x = a then some xs else (removeFirst xs a).map (x :: ·)

/-- The mutable state of one `Blesk` session instance. -/
structure DeskState where
  listeners : List Nat
  queueOf : List (Nat × List Frame)
  nextId : Nat
  cache : List (Command × Frame)
  writes : List Frame
deriving DecidableEq

/-- Append a frame to the queue with handle `q` (models `queue.put(frame)`). -/
def putQ (qs : List (Nat × List Frame)) (q : Nat) (f : Frame) :
    List (Nat × List Frame) :=
  qs.map (fun p => if p.1 = q then (p.1, p.2 ++ [f]) else p)

/-- Replace the contents of the queue with handle `q`. -/
def setQ (qs : List (Nat × List Frame)) (q : Nat) (items : List Frame) :
    List (Nat × List Frame) :=
  qs.map (fun p => if p.1 = q then (p.1, items) else p)

/-- Python `Blesk.subscribe` (desk.py lines 75-80): create a fresh queue, append it
to `_listeners`, and return its handle. -/
def Blesk.subscribe (st : DeskState) : DeskState × Nat :=
  ({ st with
      listeners := st.listeners ++ [st.nextId],
      queueOf := st.queueOf ++ [(st.nextId, [])],
      nextId := st.nextId + 1 }, st.nextId)

/-- Python `Blesk.unsubscribe` (desk.py lines 82-83): `self._listeners.remove(queue)`.
`list.remove` raises `ValueError` when the element is absent, so a handle that
is not registered produces an error. -/
def Blesk.unsubscribe (st : DeskState) (q : Nat) : Except String DeskState :=
  match removeFirst st.listeners q with
  | some l => Except.ok { st with listeners := l }
  | none => Except.error "ValueError: list.remove(x): x not in list"

/-- Python `Blesk._valid_frame_callback` (desk.py lines 56-73): upsert the frame into
the connection cache under its command, then broadcast it to every currently
registered listener queue. (The `QueueShutDown` branch is unreachable here:
`get_frame` unsubscribes a queue before shutting it down, so a registered
queue is never shut down.) -/
def Blesk.valid_frame_callback (st : DeskState) (f : Frame) : DeskState :=
  { st with
      cache := aupsert st.cache f.command f,
      queueOf := st.listeners.foldl (fun qs q => putQ qs q f) st.queueOf }

/-- Python `Blesk._data_callback` (desk.py lines 34-49) for a datagram arriving on the
expected read characteristic: decode with `Frame.from_bytes`; on any decode
exception, log and `return` (state unchanged, nothing broadcast, no error
surfaced — the function is total); on success run the valid-frame callback.
The second component lists the `(handle, frame)` broadcast deliveries made. -/
def Blesk.data_callback (st : DeskState) (data : List Nat) :
    DeskState × List (Nat × Frame) :=
  match Frame.from_bytes data with
  | Except.error _ => (st, [])
  | Except.ok f => (Blesk.valid_frame_callback st f, st.listeners.map (fun q => (q, f)))

/-- Python `Blesk._disconnect_callback` (desk.py lines 51-54): `_connection_cache = {}`.
Nothing else is touched. -/
def Blesk.disconnect_callback (st : DeskState) : DeskState :=
  { st with cache := [] }

/-- A pending wait created by `get_frame`: its subscribed queue handle and the
`HostType` it waits for. -/
structure Waiter where
  qid : Nat
  kind : HostType
deriving DecidableEq

/-- Entry of `Blesk.get_frame` (desk.py lines 96-99): `q = self.subscribe()`,
then the loop suspends on `q.get()`. -/
def Blesk.get_frame_start (st : DeskState) (kind : HostType) : DeskState × Waiter :=
  let r := Blesk.subscribe st
  (r.1, ⟨r.2, kind⟩)

/-- One pass of the `while True` loop of `get_frame` over the frames currently
queued: each `await q.get()` pops a frame; a non-matching frame is discarded
(`q.task_done()`); the first frame whose command matches `kind` is returned
with the remaining items left in the queue. -/
def scanKind (kind : HostType) : List Frame → Option (Frame × List Frame)
  | [] => none
  | f :: fs => if f.command = Command.host kind then some (f, fs) else scanKind kind fs

/-- Resume a pending `get_frame` wait (desk.py lines 101-110): consume queued
frames until one matches. On a match: `self.unsubscribe(q)` (propagating its
`ValueError` if the queue is not registered), `q.shutdown(immediate=True)`
(drops pending items; the queue was already unsubscribed), return the frame.
With no match the task consumed everything and suspends again on `q.get()`
(`none` result). -/
def Blesk.get_frame_step (st : DeskState) (w : Waiter) :
    Except String (DeskState × Option Frame) :=
  match scanKind w.kind ((alookup st.queueOf w.qid).getD []) with
  | none =>
    Except.ok ({ st with queueOf := setQ st.queueOf w.qid [] }, none)
  | some (f, rest) =>
    match Blesk.unsubscribe { st with queueOf := setQ st.queueOf w.qid rest } w.qid with
    | Except.ok st2 => Except.ok (st2, some f)
    | Except.error e => Except.error e

/-- The frame a pending wait resolves with after a resume pass, if any. -/
def Blesk.stepResult (st : DeskState) (w : Waiter) : Option Frame :=
  match Blesk.get_frame_step st w with
  | Except.ok (_, r) => r
  | Except.error _ => none

/-- External cancellation of a task suspended in `get_frame` at `await q.get()`:
`CancelledError` is raised at the await point and propagates out of
`get_frame`, which has no `try`/`finally` (desk.py lines 96-110), so no
cleanup code runs and the session state — including the subscriber registry —
is left exactly as it was. -/
def Blesk.get_frame_cancel (st : DeskState) (w : Waiter) : DeskState := st

/-- Result of a `query` call up to its first suspension. -/
inductive QueryOutcome
  | cached (f : Frame)
  | pending (w : Waiter)
deriving DecidableEq

/-- Observable events of the `query` path, in order of occurrence. -/
inductive Event
  | register (k : HostType)
  | write (f : Frame)
deriving DecidableEq

/-- The cache-miss path of `query` (desk.py lines 117-120):
`query_task = asyncio.create_task(self.get_frame(kind=receive))` enqueues the
waiter task; `await self.send_frame(send)` then suspends the caller inside
`write_gatt_char`, at which point the event loop first runs the
previously-enqueued waiter task (FIFO), which subscribes and suspends on
`q.get()`, and the write to the transport completes during that suspension.
Hence the subscriber registration precedes the transmission in the event
trace, and exactly one write of `send` occurs. -/
def Blesk.query_miss (st : DeskState) (send : Frame) (receive : HostType) :
    DeskState × QueryOutcome × List Event :=
  let r := Blesk.get_frame_start st receive
  ({ r.1 with writes := r.1.writes ++ [send] },
   QueryOutcome.pending r.2,
   [Event.register receive, Event.write send])

/-- Python `Blesk.query` (desk.py lines 112-120): if `from_cache` and the cache holds
`receive`, return the cached frame at once (no await is executed on this path,
hence no suspension, no event); otherwise take the miss path. -/
def Blesk.query (st : DeskState) (send : Frame) (receive : HostType)
    (from_cache : Bool) : DeskState × QueryOutcome × List Event :=
  match from_cache, alookup st.cache (Command.host receive) with
  | true, some f => (st, QueryOutcome.cached f, [])
  | _, _ => Blesk.query_miss st send receive

/-! ## Preset table (`src/blesk/protocol.py` lines 19-23, 73-80) and the
high-level decode paths of `desk.py` -/

/-- Python `class Preset(Enum)`: ONE..FOUR = 0x01..0x04. -/
inductive Preset
  | ONE
  | TWO
  | THREE
  | FOUR
deriving DecidableEq

/-- Python `PresetInfo = namedtuple(..., ['goto', 'set_current', 'get'])`. -/
structure PresetInfo where
  goto : DeskType
  set_current : DeskType
  get : HostType
deriving DecidableEq

/-- Python `PresetDict` (protocol.py lines 75-80): the static preset table. -/
def PresetDict : Preset → PresetInfo
  | .ONE => ⟨DeskType.MOVE_1, DeskType.PROGMEM_1, HostType.POSITION_1⟩
  | .TWO => ⟨DeskType.MOVE_2, DeskType.PROGMEM_2, HostType.POSITION_2⟩
  | .THREE => ⟨DeskType.MOVE_3, DeskType.PROGMEM_3, HostType.POSITION_3⟩
  | .FOUR => ⟨DeskType.MOVE_4, DeskType.PROGMEM_4, HostType.POSITION_4⟩

/-- The pure decode step of `Blesk.get_height_mm` (desk.py line 155), applied
to the telemetry frame its height query returned and the units it fetched:
`HeightData(frame.params[0:2]).decode_as(units).as_mm.as_float`. -/
def Blesk.get_height_mm_decode (units : Blesk.Units) (frame : Frame) : ℚ :=
  ((HeightData.mk (frame.params.take 2)).decode_as units).as_mm.as_float

/-- Modelled from the spec: `Blesk.get_preset_mm` is absent from
`src/blesk/desk.py`; only its caller (`src/blesk/cli.py` line 196) and its
tests reference it. Spec section 4.4: "query using the preset's read kind" —
the receive kind of the query is the preset's positional-read entry. -/
def Blesk.get_preset_mm_kind (preset : Preset) : HostType :=
  (PresetDict preset).get

/-- Modelled from the spec: the decode step of the absent
`Blesk.get_preset_mm` — "then decode as height using current units —
identical decode path to get_height_mm", i.e.
`HeightData(frame.params[0:2]).decode_as(units).as_mm.as_float` applied to
the single positional-read frame. -/
def Blesk.get_preset_mm_decode (units : Blesk.Units) (frame : Frame) : ℚ :=
  ((HeightData.mk (frame.params.take 2)).decode_as units).as_mm.as_float

/-! ## Helper lemmas about the list primitives -/

/-- Looking up a freshly appended binding whose key is new. -/
theorem alookup_append_fresh {α : Type} (l : List (Nat × α)) (k : Nat) (v : α)
    (h : ∀ p ∈ l, p.1 ≠ k) : alookup (l ++ [(k, v)]) k = some v := by
  induction l with
  | nil => simp [alookup]
  | cons p t ih =>
    obtain ⟨a, b⟩ := p
    have ha : a ≠ k := h (a, b) (by simp)
    simp only [List.cons_append, alookup, if_neg ha]
    exact ih (fun p hp => h p (by simp [hp]))

/-- Unfolding `alookup` on a cons cell. -/
theorem alookup_cons {κ α : Type} [DecidableEq κ] (a : κ) (b : α)
    (t : List (κ × α)) (k : κ) :
    alookup ((a, b) :: t) k = if a = k then some b else alookup t k := rfl

/-- Unfolding `putQ` on a cons cell. -/
theorem putQ_cons (a : Nat) (b : List Frame) (t : List (Nat × List Frame))
    (q : Nat) (f : Frame) :
    putQ ((a, b) :: t) q f =
      (if a = q then (a, b ++ [f]) else (a, b)) :: putQ t q f := by
  by_cases ha : a = q <;> simp [putQ, ha]

/-- Lemma: `putQ` on a different queue does not change a lookup. -/
theorem alookup_putQ_ne (qs : List (Nat × List Frame)) (q' q : Nat) (f : Frame)
    (h : q' ≠ q) : alookup (putQ qs q' f) q = alookup qs q := by
  induction qs with
  | nil => rfl
  | cons p t ih =>
    obtain ⟨a, b⟩ := p
    rw [putQ_cons]
    by_cases ha : a = q'
    · rw [if_pos ha, alookup_cons, alookup_cons, if_neg (ha ▸ h), if_neg (ha ▸ h)]
      exact ih
    · rw [if_neg ha, alookup_cons, alookup_cons]
      by_cases hq : a = q
      · rw [if_pos hq, if_pos hq]
      · rw [if_neg hq, if_neg hq]
        exact ih

/-- Lemma: `putQ` on the looked-up queue appends the frame to its contents. -/
theorem alookup_putQ_eq (qs : List (Nat × List Frame)) (q : Nat) (f : Frame) :
    alookup (putQ qs q f) q = (alookup qs q).map (· ++ [f]) := by
  induction qs with
  | nil => rfl
  | cons p t ih =>
    obtain ⟨a, b⟩ := p
    rw [putQ_cons]
    by_cases ha : a = q
    · rw [if_pos ha, alookup_cons, alookup_cons, if_pos ha, if_pos ha]
      rfl
    · rw [if_neg ha, alookup_cons, alookup_cons, if_neg ha, if_neg ha]
      exact ih

/-- Broadcasting to a list of listeners not containing `q` leaves `q`'s queue
contents unchanged. -/
theorem alookup_foldl_putQ_zero (l : List Nat) (q : Nat) (f : Frame)
    (qs : List (Nat × List Frame)) (h : l.count q = 0) :
    alookup (l.foldl (fun a q' => putQ a q' f) qs) q = alookup qs q := by
  induction l generalizing qs with
  | nil => rfl
  | cons x t ih =>
    have hx : x ≠ q := by
      intro hxq
      subst hxq
      simp [List.count_cons] at h
    have ht : t.count q = 0 := by
      simp [List.count_cons, hx] at h
      omega
    simp only [List.foldl_cons]
    rw [ih (putQ qs x f) ht, alookup_putQ_ne qs x q f hx]

/-- Broadcasting to a list of listeners containing `q` exactly once appends the
frame to `q`'s queue contents exactly once. -/
theorem alookup_foldl_putQ_once (l : List Nat) (q : Nat) (f : Frame)
    (qs : List (Nat × List Frame)) (h : l.count q = 1) :
    alookup (l.foldl (fun a q' => putQ a q' f) qs) q =
      (alookup qs q).map (· ++ [f]) := by
  induction l generalizing qs with
  | nil => simp [List.count_nil] at h
  | cons x t ih =>
    by_cases hx : x = q
    · subst hx
      have ht : t.count x = 0 := by
        simp [List.count_cons] at h
        omega
      simp only [List.foldl_cons]
      rw [alookup_foldl_putQ_zero t x f (putQ qs x f) ht, alookup_putQ_eq]
    · have ht : t.count q = 1 := by
        simp [List.count_cons, hx] at h
        omega
      simp only [List.foldl_cons]
      rw [ih (putQ qs x f) ht, alookup_putQ_ne qs x q f hx]

/-- Lemma: `scanKind` finds nothing among frames of other kinds. -/
theorem scanKind_of_forall_ne (k : HostType) (items : List Frame)
    (h : ∀ g ∈ items, g.command ≠ Command.host k) : scanKind k items = none := by
  induction items with
  | nil => rfl
  | cons f t ih =>
    have hf : f.command ≠ Command.host k := h f (by simp)
    simp only [scanKind, if_neg hf]
    exact ih (fun g hg => h g (by simp [hg]))

/-- Lemma: `scanKind` skips a non-matching prefix and returns the first match. -/
theorem scanKind_append_match (k : HostType) (fs : List Frame) (g : Frame)
    (rest : List Frame) (hfs : ∀ g' ∈ fs, g'.command ≠ Command.host k)
    (hg : g.command = Command.host k) :
    scanKind k (fs ++ g :: rest) = some (g, rest) := by
  induction fs with
  | nil => simp [scanKind, hg]
  | cons f t ih =>
    have hf : f.command ≠ Command.host k := hfs f (by simp)
    simp only [List.cons_append, scanKind, if_neg hf]
    exact ih (fun g' hg' => hfs g' (by simp [hg']))

/-- Lemma: `list.remove` fails exactly on absent elements. -/
theorem removeFirst_of_not_mem {α : Type} [DecidableEq α] (l : List α) (a : α)
    (h : a ∉ l) : removeFirst l a = none := by
  induction l with
  | nil => rfl
  | cons x t ih =>
    have hx : x ≠ a := fun hxa => h (by simp [hxa])
    simp only [removeFirst, if_neg hx]
    rw [ih (fun ht => h (by simp [ht]))]
    rfl

/-- Lemma: `list.remove` on a present element removes exactly one occurrence. -/
theorem removeFirst_of_mem {α : Type} [DecidableEq α] (l : List α) (a : α)
    (h : a ∈ l) : ∃ l', removeFirst l a = some l' ∧ l'.count a + 1 = l.count a := by
  induction l with
  | nil => simp at h
  | cons x t ih =>
    by_cases hx : x = a
    · subst hx
      exact ⟨t, by simp [removeFirst], by simp [List.count_cons]⟩
    · have ht : a ∈ t := by
        rcases List.mem_cons.mp h with h1 | h1
        · exact absurd h1.symm hx
        · exact h1
      obtain ⟨l', hl', hc⟩ := ih ht
      refine ⟨x :: l', by simp [removeFirst, if_neg hx, hl'], ?_⟩
      simp [List.count_cons, fun hax : a = x => hx hax.symm]
      omega

/-- A single valid-frame callback never changes the subscriber registry. -/
theorem vfc_listeners (st : DeskState) (f : Frame) :
    (Blesk.valid_frame_callback st f).listeners = st.listeners := rfl

/-- The valid-frame callback never changes the subscriber registry. -/
theorem foldl_vfc_listeners (fs : List Frame) (st : DeskState) :
    (fs.foldl Blesk.valid_frame_callback st).listeners = st.listeners := by
  induction fs generalizing st with
  | nil => rfl
  | cons f t ih => exact (ih _).trans rfl

/-- Processing a sequence of inbound frames appends each of them, in order, to
a queue registered exactly once. -/
theorem foldl_vfc_queue (fs : List Frame) (st : DeskState) (q : Nat)
    (items : List Frame) (hc : st.listeners.count q = 1)
    (hl : alookup st.queueOf q = some items) :
    alookup (fs.foldl Blesk.valid_frame_callback st).queueOf q =
      some (items ++ fs) := by
  induction fs generalizing st items with
  | nil => simpa using hl
  | cons f t ih =>
    simp only [List.foldl_cons]
    have h1 : alookup (Blesk.valid_frame_callback st f).queueOf q =
        some (items ++ [f]) := by
      show alookup (st.listeners.foldl (fun qs q' => putQ qs q' f) st.queueOf) q = _
      rw [alookup_foldl_putQ_once st.listeners q f st.queueOf hc, hl]
      rfl
    have h2 : (Blesk.valid_frame_callback st f).listeners.count q = 1 := hc
    have := ih (Blesk.valid_frame_callback st f) (items ++ [f]) h2 h1
    simpa using this

/-! ## Claim theorems -/

/-- A desk session with no listeners, no cache, no writes. -/
def emptyDesk : DeskState := ⟨[], [], 0, [], []⟩

/-- The Wake request frame `Frame(command=DeskType.BLE_WAKE)`. -/
def wakeFrame : Frame := ⟨Command.desk DeskType.BLE_WAKE, []⟩

/-- A Height telemetry frame with raw value 750 mm. -/
def heightFrame : Frame := ⟨Command.host HostType.HEIGHT, [0x02, 0xee]⟩

/-- Claim C2: on a cache miss, `query` registers the subscriber for
`receive` before the `send` frame is transmitted (the event trace is
`[register, write]`), transmits `send` exactly once, and the resulting
pending wait resolves with a frame only after a frame of kind `receive`
has been broadcast: it stays unresolved over any sequence of non-matching
broadcasts and resolves with the first matching broadcast frame. -/
theorem query_miss_registers_before_write (st : DeskState) (send : Frame)
    (receive : HostType) (fc : Bool)
    (hmiss : fc = false ∨ alookup st.cache (Command.host receive) = none)
    (hl : ∀ q ∈ st.listeners, q < st.nextId)
    (hq : ∀ p ∈ st.queueOf, p.1 < st.nextId) :
    (Blesk.query st send receive fc).2.2 =
        [Event.register receive, Event.write send] ∧
    (Blesk.query st send receive fc).1.writes = st.writes ++ [send] ∧
    ∃ w, (Blesk.query st send receive fc).2.1 = QueryOutcome.pending w ∧
      (∀ fs : List Frame, (∀ g ∈ fs, g.command ≠ Command.host receive) →
        Blesk.stepResult
          (fs.foldl Blesk.valid_frame_callback (Blesk.query st send receive fc).1) w =
          none) ∧
      (∀ fs : List Frame, ∀ g : Frame,
        (∀ g' ∈ fs, g'.command ≠ Command.host receive) →
        g.command = Command.host receive →
        Blesk.stepResult
          (Blesk.valid_frame_callback
            (fs.foldl Blesk.valid_frame_callback (Blesk.query st send receive fc).1) g)
          w = some g) := by
  have hquery : Blesk.query st send receive fc = Blesk.query_miss st send receive := by
    rcases hmiss with h | h
    · subst h
      cases halookup : alookup st.cache (Command.host receive) <;>
        simp [Blesk.query, halookup]
    · cases fc <;> simp [Blesk.query, h]
  rw [hquery]
  refine ⟨rfl, rfl, ⟨st.nextId, receive⟩, rfl, ?_, ?_⟩
  all_goals
    have hnotin : st.nextId ∉ st.listeners := fun hmem => lt_irrefl _ (hl _ hmem)
    have hcount : (Blesk.query_miss st send receive).1.listeners.count st.nextId = 1 := by
      show (st.listeners ++ [st.nextId]).count st.nextId = 1
      rw [List.count_append, List.count_eq_zero.mpr hnotin]
      simp
    have halook : alookup (Blesk.query_miss st send receive).1.queueOf st.nextId =
        some [] := by
      show alookup (st.queueOf ++ [(st.nextId, [])]) st.nextId = some []
      exact alookup_append_fresh _ _ _ (fun p hp => (hq p hp).ne)
  · intro fs hfs
    have h1 := foldl_vfc_queue fs (Blesk.query_miss st send receive).1 st.nextId []
      hcount halook
    simp only [List.nil_append] at h1
    simp only [Blesk.stepResult, Blesk.get_frame_step, h1, Option.getD_some,
      scanKind_of_forall_ne receive fs hfs]
  · intro fs g hfs hg
    have h1 := foldl_vfc_queue fs (Blesk.query_miss st send receive).1 st.nextId []
      hcount halook
    simp only [List.nil_append] at h1
    have hl2 : (fs.foldl Blesk.valid_frame_callback
        (Blesk.query_miss st send receive).1).listeners =
        (Blesk.query_miss st send receive).1.listeners :=
      foldl_vfc_listeners fs _
    have hcount2 : (fs.foldl Blesk.valid_frame_callback
        (Blesk.query_miss st send receive).1).listeners.count st.nextId = 1 := by
      rw [hl2]
      exact hcount
    have h3 : alookup (Blesk.valid_frame_callback
        (fs.foldl Blesk.valid_frame_callback (Blesk.query_miss st send receive).1)
        g).queueOf st.nextId = some (fs ++ [g]) := by
      show alookup ((fs.foldl Blesk.valid_frame_callback
        (Blesk.query_miss st send receive).1).listeners.foldl
          (fun qs q => putQ qs q g)
          (fs.foldl Blesk.valid_frame_callback
            (Blesk.query_miss st send receive).1).queueOf) st.nextId = _
      rw [alookup_foldl_putQ_once _ _ _ _ hcount2, h1]
      rfl
    have hmem : st.nextId ∈ (fs.foldl Blesk.valid_frame_callback
        (Blesk.query_miss st send receive).1).listeners := by
      rw [hl2]
      show st.nextId ∈ st.listeners ++ [st.nextId]
      simp
    obtain ⟨l', hl', hcnt⟩ := removeFirst_of_mem _ _ hmem
    have hscan : scanKind receive (fs ++ g :: []) = some (g, []) :=
      scanKind_append_match receive fs g [] hfs hg
    simp only [Blesk.stepResult, Blesk.get_frame_step, h3, Option.getD_some, hscan,
      Blesk.unsubscribe, vfc_listeners, hl']

/-- Witness for C2: a query on the empty session. -/
theorem query_miss_registers_before_write_witness :
    (Blesk.query emptyDesk wakeFrame HostType.HEIGHT true).2.2 =
        [Event.register HostType.HEIGHT, Event.write wakeFrame] ∧
    (Blesk.query emptyDesk wakeFrame HostType.HEIGHT true).1.writes =
        emptyDesk.writes ++ [wakeFrame] := by
  have h := query_miss_registers_before_write emptyDesk wakeFrame HostType.HEIGHT true
    (Or.inr rfl) (by intro q hq; simp [emptyDesk] at hq) (by intro p hp; simp [emptyDesk] at hp)
  exact ⟨h.1, h.2.1⟩

/-- Claim C3: when `from_cache = true` and the cache holds `receive`, `query`
returns the cached frame immediately: the state (cache, registry, queues,
write trace) is unchanged and the event trace is empty — no transport write,
no registration, and no suspension (this path executes no await). -/
theorem query_cache_hit (st : DeskState) (send : Frame) (receive : HostType)
    (f : Frame) (hc : alookup st.cache (Command.host receive) = some f) :
    Blesk.query st send receive true = (st, QueryOutcome.cached f, []) := by
  simp [Blesk.query, hc]

/-- Witness for C3: a session whose cache holds a Height frame. -/
theorem query_cache_hit_witness :
    Blesk.query ⟨[], [], 0, [(Command.host HostType.HEIGHT, heightFrame)], []⟩
        wakeFrame HostType.HEIGHT true =
      (⟨[], [], 0, [(Command.host HostType.HEIGHT, heightFrame)], []⟩,
       QueryOutcome.cached heightFrame, []) :=
  query_cache_hit _ wakeFrame HostType.HEIGHT heightFrame rfl

/-- Claim C4: an inbound datagram whose decode fails with any
`FrameFormatError` is logged and discarded: the state (in particular the
connection cache) is unchanged, no frame is broadcast to any subscriber, no
error is surfaced (the callback is total), and the session is ready for
subsequent datagrams. -/
theorem data_callback_decode_failure (st : DeskState) (data : List Nat)
    (e : FrameError) (h : Frame.from_bytes data = Except.error e) :
    Blesk.data_callback st data = (st, []) := by
  simp [Blesk.data_callback, h]

/-- Witness for C4: the two-byte datagram `f1 f1` (too short). -/
theorem data_callback_decode_failure_witness :
    Blesk.data_callback emptyDesk [0xf1, 0xf1] = (emptyDesk, []) :=
  data_callback_decode_failure emptyDesk [0xf1, 0xf1] FrameError.tooShort rfl

/-- Counterexample to claim C5: subscribe once, then unsubscribe the handle
twice. The second call does not succeed silently — `list.remove` raises
`ValueError` because the handle is no longer registered. -/
theorem unsubscribe_second_call_raises :
    (Blesk.unsubscribe (Blesk.subscribe emptyDesk).1 (Blesk.subscribe emptyDesk).2).bind
        (fun st2 => Blesk.unsubscribe st2 (Blesk.subscribe emptyDesk).2) =
      Except.error "ValueError: list.remove(x): x not in list" := rfl

/-- Claim C5 (amended): `unsubscribe(handle)` removes the first occurrence of
the handle from the registry (touching nothing else) when the handle is
registered; it is NOT idempotent — on a handle that is not registered
(in particular, on a second call for an already-removed handle) it raises
`ValueError` instead of succeeding with no effect. -/
theorem unsubscribe_removes_or_raises :
    (∀ st : DeskState, ∀ q : Nat, q ∈ st.listeners →
      ∃ st2, Blesk.unsubscribe st q = Except.ok st2 ∧
        st2.listeners.count q + 1 = st.listeners.count q ∧
        st2.queueOf = st.queueOf ∧ st2.cache = st.cache ∧ st2.writes = st.writes) ∧
    (∀ st : DeskState, ∀ q : Nat, q ∉ st.listeners →
      Blesk.unsubscribe st q =
        Except.error "ValueError: list.remove(x): x not in list") := by
  constructor
  · intro st q hq
    obtain ⟨l', hl', hc⟩ := removeFirst_of_mem st.listeners q hq
    exact ⟨{ st with listeners := l' }, by simp [Blesk.unsubscribe, hl'],
      by simpa using hc, rfl, rfl, rfl⟩
  · intro st q hq
    simp [Blesk.unsubscribe, removeFirst_of_not_mem st.listeners q hq]

/-- Witness for C5 (amended), error side: unsubscribing an unregistered
handle on the empty session raises. -/
theorem unsubscribe_removes_or_raises_witness :
    Blesk.unsubscribe emptyDesk 0 =
      Except.error "ValueError: list.remove(x): x not in list" :=
  unsubscribe_removes_or_raises.2 emptyDesk 0 (by simp [emptyDesk])

/-- Claim C6: the disconnect callback empties the connection cache and touches
nothing else — the subscriber registry, the queue contents (hence pending
waiters) and the write trace are unchanged — and a subsequent
`from_cache = true` query for any kind misses the now-empty cache and performs
the transport round trip (register then write). -/
theorem disconnect_clears_cache (st : DeskState) (send : Frame)
    (receive : HostType) :
    (Blesk.disconnect_callback st).cache = [] ∧
    (Blesk.disconnect_callback st).listeners = st.listeners ∧
    (Blesk.disconnect_callback st).queueOf = st.queueOf ∧
    (Blesk.disconnect_callback st).writes = st.writes ∧
    (Blesk.query (Blesk.disconnect_callback st) send receive true).2.2 =
        [Event.register receive, Event.write send] ∧
    (Blesk.query (Blesk.disconnect_callback st) send receive true).1.writes =
        st.writes ++ [send] :=
  ⟨rfl, rfl, rfl, rfl, rfl, rfl⟩

/-- Counterexample to claim C7: start a wait (`get_frame` subscribes channel 0)
on the empty session, then cancel it externally. The channel created by the
abandoned wait is still registered: `get_frame` has no `try`/`finally`, so the
cancellation exit path does not unsubscribe. -/
theorem get_frame_cancel_leaks_channel :
    (Blesk.get_frame_cancel (Blesk.get_frame_start emptyDesk HostType.HEIGHT).1
        (Blesk.get_frame_start emptyDesk HostType.HEIGHT).2).listeners =
      [(Blesk.get_frame_start emptyDesk HostType.HEIGHT).2.qid] := rfl

/-- Claim C7 (amended): `get_frame` unregisters its channel on the normal
completion path (returning a matching frame), but NOT on external
cancellation: a task cancelled while suspended in `get_frame` leaves the
session state — including the still-registered channel — exactly as it was,
so the channel keeps receiving broadcasts. -/
theorem get_frame_unsubscribes_on_completion_only (st : DeskState) (w : Waiter)
    (f : Frame) (rest : List Frame)
    (hcount : st.listeners.count w.qid = 1)
    (hq : alookup st.queueOf w.qid = some (f :: rest))
    (hf : f.command = Command.host w.kind) :
    (∃ st2, Blesk.get_frame_step st w = Except.ok (st2, some f) ∧
      w.qid ∉ st2.listeners) ∧
    Blesk.get_frame_cancel st w = st := by
  refine ⟨?_, rfl⟩
  have hmem : w.qid ∈ st.listeners := List.count_pos_iff.mp (by omega)
  obtain ⟨l', hl', hc⟩ := removeFirst_of_mem st.listeners w.qid hmem
  refine ⟨⟨l', setQ st.queueOf w.qid rest, st.nextId, st.cache, st.writes⟩, ?_, ?_⟩
  · simp only [Blesk.get_frame_step, hq, Option.getD_some, scanKind, if_pos hf,
      Blesk.unsubscribe, hl']
  · show w.qid ∉ l'
    exact List.count_eq_zero.mp (by omega)

/-- Witness for C7 (amended): a session with one registered channel holding a
matching Height frame. -/
theorem get_frame_unsubscribes_on_completion_only_witness :
    (∃ st2, Blesk.get_frame_step ⟨[0], [(0, [heightFrame])], 1, [], []⟩
        ⟨0, HostType.HEIGHT⟩ = Except.ok (st2, some heightFrame) ∧
      (0 : Nat) ∉ st2.listeners) ∧
    Blesk.get_frame_cancel ⟨[0], [(0, [heightFrame])], 1, [], []⟩
        ⟨0, HostType.HEIGHT⟩ = ⟨[0], [(0, [heightFrame])], 1, [], []⟩ :=
  get_frame_unsubscribes_on_completion_only ⟨[0], [(0, [heightFrame])], 1, [], []⟩
    ⟨0, HostType.HEIGHT⟩ heightFrame [] (by decide) rfl rfl

/-- Claim C8 (spec-modelled, `get_preset_mm` is absent from desk.py): for each
preset id 1..4 the modelled `get_preset_mm` queries that preset's
positional-read kind from the preset table (`Position1..4`), and its decode
of the returned frame's raw height bytes under the current units is the
identical decode path used by `get_height_mm`. -/
theorem get_preset_mm_uses_preset_kind_and_height_decode :
    ((PresetDict Preset.ONE).get = HostType.POSITION_1 ∧
     (PresetDict Preset.TWO).get = HostType.POSITION_2 ∧
     (PresetDict Preset.THREE).get = HostType.POSITION_3 ∧
     (PresetDict Preset.FOUR).get = HostType.POSITION_4) ∧
    (∀ p : Preset, Blesk.get_preset_mm_kind p = (PresetDict p).get) ∧
    (∀ u : Blesk.Units, ∀ frame : Frame,
      Blesk.get_preset_mm_decode u frame = Blesk.get_height_mm_decode u frame) :=
  ⟨⟨rfl, rfl, rfl, rfl⟩, fun _ => rfl, fun _ _ => rfl⟩

/-- Claim C10: accessing `as_float` on any `HeightIn` value fails with
`AttributeError` (its body reads the attribute `mm`, which `HeightIn` does not
define); the working numeric route is `as_mm.as_float` (or the `inches` field
itself), which yields `inches / 0.0393701` millimeters. -/
theorem heightIn_as_float_raises :
    (∀ h : HeightIn, h.as_float =
      Except.error "AttributeError: HeightIn object has no attribute mm") ∧
    (∀ h : HeightIn, h.as_mm.as_float = h.inches / (393701 / 10000000 : ℚ)) :=
  ⟨fun _ => rfl, fun _ => rfl⟩

/-- Floor of a rational divided by 256 is integer (Euclidean) division of its
floor by 256. -/
theorem floor_div_256 (a : ℚ) : ⌊a / 256⌋ = ⌊a⌋ / 256 := by
  apply le_antisymm
  · rw [Int.le_ediv_iff_mul_le (by norm_num)]
    rw [Int.le_floor]
    push_cast
    have h := Int.floor_le (a / 256)
    nlinarith
  · rw [Int.le_floor]
    rw [le_div_iff₀ (by norm_num : (0:ℚ) < 256)]
    have h1 : ((⌊a⌋ / 256 * 256 : ℤ) : ℚ) ≤ (⌊a⌋ : ℚ) := by
      exact_mod_cast Int.ediv_mul_le ⌊a⌋ (by norm_num)
    have h2 := Int.floor_le a
    push_cast at h1
    linarith

/-- Floor of the Python float modulus by 256 is the integer modulus of the
floor. -/
theorem floor_pymod_256 (a : ℚ) : ⌊pymod a 256⌋ = ⌊a⌋ % 256 := by
  have h1 : (256 : ℚ) * ⌊a / 256⌋ = ((256 * ⌊a / 256⌋ : ℤ) : ℚ) := by
    push_cast
    ring
  rw [pymod, h1, Int.floor_sub_int, floor_div_256, Int.emod_def]

/-- For a nonnegative rational with 16-bit floor, the two byte-cell
assignments of the height encoders produce exactly the big-endian bytes of
the floor. -/
theorem encode_byte_pair (a : ℚ) (h0 : 0 ≤ a) (h1 : ⌊a⌋ < 65536) :
    byteAssign? (pyint (a / 0x100)) = some (⌊a⌋ / 256).toNat ∧
    byteAssign? (pyint (pymod a 0x100)) = some (⌊a⌋ % 256).toNat := by
  have hfl0 : (0 : ℤ) ≤ ⌊a⌋ := Int.floor_nonneg.mpr h0
  constructor
  · have hd : pyint (a / 0x100) = ⌊a⌋ / 256 := by
      rw [pyint, if_pos (by positivity)]
      exact_mod_cast floor_div_256 a
    rw [hd, byteAssign?, if_pos]
    constructor
    · exact Int.ediv_nonneg hfl0 (by norm_num)
    · rw [Int.ediv_lt_iff_lt_mul (by norm_num)]
      omega
  · have hnn : 0 ≤ pymod a 0x100 := by
      have h := Int.floor_le (a / 256)
      have h256 : (0 : ℚ) < 256 := by norm_num
      rw [pymod]
      have : (⌊a / 256⌋ : ℚ) * 256 ≤ a / 256 * 256 := by nlinarith
      have ha : a / 256 * 256 = a := by ring
      nlinarith
    have hd : pyint (pymod a 0x100) = ⌊a⌋ % 256 := by
      rw [pyint, if_pos (by exact_mod_cast hnn)]
      exact_mod_cast floor_pymod_256 a
    rw [hd, byteAssign?, if_pos]
    constructor
    · exact Int.emod_nonneg ⌊a⌋ (by norm_num)
    · exact Int.emod_lt_of_pos ⌊a⌋ (by norm_num)

/-- Claim C9: height encoding produces an unsigned 16-bit big-endian value:
for every nonnegative `HeightMM(mm)` whose floor fits in 16 bits, `encode`
yields the two big-endian bytes of `⌊mm⌋`; for every nonnegative
`HeightIn(inches)` likewise for `⌊inches * 10⌋` (tenth-inch resolution);
in particular `HeightMM(1100)` encodes to `[0x04, 0x4C]` and
`HeightIn(30.5)` encodes to `[0x01, 0x31]`. -/
theorem height_encode_bigendian :
    (∀ mm : ℚ, 0 ≤ mm → ⌊mm⌋ < 65536 →
      HeightMM.encode ⟨mm⟩ =
        some ⟨[(⌊mm⌋ / 256).toNat, (⌊mm⌋ % 256).toNat]⟩) ∧
    (∀ inches : ℚ, 0 ≤ inches → ⌊inches * 10⌋ < 65536 →
      HeightIn.encode ⟨inches⟩ =
        some ⟨[(⌊inches * 10⌋ / 256).toNat, (⌊inches * 10⌋ % 256).toNat]⟩) ∧
    HeightMM.encode ⟨1100⟩ = some ⟨[0x04, 0x4C]⟩ ∧
    HeightIn.encode ⟨30.5⟩ = some ⟨[0x01, 0x31]⟩ := by
  have hmm : ∀ mm : ℚ, 0 ≤ mm → ⌊mm⌋ < 65536 →
      HeightMM.encode ⟨mm⟩ =
        some ⟨[(⌊mm⌋ / 256).toNat, (⌊mm⌋ % 256).toNat]⟩ := by
    intro mm h0 h1
    obtain ⟨e0, e1⟩ := encode_byte_pair mm h0 h1
    simp only [HeightMM.encode, e0, e1]
  have hin : ∀ inches : ℚ, 0 ≤ inches → ⌊inches * 10⌋ < 65536 →
      HeightIn.encode ⟨inches⟩ =
        some ⟨[(⌊inches * 10⌋ / 256).toNat, (⌊inches * 10⌋ % 256).toNat]⟩ := by
    intro inches h0 h1
    obtain ⟨e0, e1⟩ := encode_byte_pair (inches * 10) (by positivity) h1
    simp only [HeightIn.encode, e0, e1]
  refine ⟨hmm, hin, ?_, ?_⟩
  · have h := hmm 1100 (by norm_num) (by norm_num [Int.floor_intCast])
    rw [h]
    norm_num
    decide
  · have h := hin (30.5 : ℚ) (by norm_num) ?_
    · rw [h]
      norm_num
      rfl
    · norm_num

/-- Witness for C9 at `HeightMM(1100)`, applying the general statement. -/
theorem height_encode_bigendian_witness :
    HeightMM.encode ⟨1100⟩ =
      some ⟨[(⌊(1100 : ℚ)⌋ / 256).toNat, (⌊(1100 : ℚ)⌋ % 256).toNat]⟩ :=
  height_encode_bigendian.1 1100 (by norm_num) (by norm_num [Int.floor_intCast])
